import Mathlib

/-!
Shallow embedding of `download_photos.py`: a bulk photo downloader that
extracts Google Drive file ids from CSV rows, builds destination
filenames, downloads with a retry/backoff state machine, and aggregates
per-task outcomes into batch summaries.
-/

namespace DownloadPhotos

/-! ## Basic string helpers -/

/-- Bool test: `needle` is a prefix of `hay` (character lists). -/
def leadsWith : List Char → List Char → Bool
  | [], _ => true
  | _ :: _, [] => false
  | a :: as, b :: bs => a == b && leadsWith as bs

/-- Bool test: `needle` occurs as a contiguous substring of `hay`
(the semantics of Python `needle in hay`). -/
def hasSub (needle : List Char) : List Char → Bool
  | [] => leadsWith needle []
  | b :: bs => leadsWith needle (b :: bs) || hasSub needle bs

/-- Python `str.strip()`: drop whitespace from both ends. -/
def pyStrip (s : String) : String :=
  String.mk (((s.data.dropWhile Char.isWhitespace).reverse.dropWhile Char.isWhitespace).reverse)

/-- ASCII lower-casing of one character (the fragment of Python
`str.lower()` relevant to the diagnostic texts). -/
def lowerChar (c : Char) : Char :=
  if 'A' ≤ c ∧ c ≤ 'Z' then Char.ofNat (c.toNat + 32) else c

/-! ## `extract_file_id` (lines 19-36)

Python scans with `re.search(r'id=([a-zA-Z0-9_-]+)', url)` first and, if that
fails, `re.search(r'/d/([a-zA-Z0-9_-]+)', url)`.  `re.search` finds the
leftmost position where the literal part matches followed by at least one
identifier character, and the capture is the maximal greedy run. -/

/-- Character class `[a-zA-Z0-9_-]` of the two id-capturing patterns. -/
def isIdChar (c : Char) : Bool := c.isAlphanum || c == '_' || c == '-'

/-- Try the query-parameter pattern `id=([a-zA-Z0-9_-]+)` anchored at the
head of the list. -/
def tryKVAt : List Char → Option String
  | 'i' :: 'd' :: '=' :: rest =>
      let run := rest.takeWhile isIdChar
      if run.isEmpty then none else some (String.mk run)
  | _ => none

/-- Try the path-segment pattern `/d/([a-zA-Z0-9_-]+)` anchored at the head
of the list. -/
def tryPathAt : List Char → Option String
  | '/' :: 'd' :: '/' :: rest =>
      let run := rest.takeWhile isIdChar
      if run.isEmpty then none else some (String.mk run)
  | _ => none

/-- Leftmost match: apply the anchored pattern at each successive suffix
(the semantics of `re.search`). -/
def searchFirst (pat : List Char → Option String) : List Char → Option String
  | [] => pat []
  | c :: rest =>
      match pat (c :: rest) with
      | some s => some s
      | none => searchFirst pat rest

/-- `extract_file_id` (lines 19-36): empty/blank input gives `none`; then the
query-parameter pattern, then the path-segment pattern, else `none`. -/
def extract_file_id (drive_url : String) : Option String :=
  if pyStrip drive_url = "" then none
  else
    match searchFirst tryKVAt drive_url.data with
    | some s => some s
    | none => searchFirst tryPathAt drive_url.data

/-! ## `sanitize_filename` (lines 38-44) -/

/-- The safe character class `[\w\-.]` of the sanitizer (word characters,
hyphen, dot). -/
def isSafeChar (c : Char) : Bool := c.isAlphanum || c == '_' || c == '-' || c == '.'

/-- `re.sub(r'_+', '_', ·)`: collapse each run of consecutive underscores
into a single underscore. -/
def collapseUnderscores : List Char → List Char
  | [] => []
  | [c] => [c]
  | c :: d :: rest =>
      if c = '_' ∧ d = '_' then collapseUnderscores (d :: rest)
      else c :: collapseUnderscores (d :: rest)

/-- `sanitize_filename` (lines 38-44): `re.sub(r'[^\w\-.]', '_', name)`
followed by `re.sub(r'_+', '_', name)`. -/
def sanitize_filename (name : String) : String :=
  String.mk (collapseUnderscores (name.data.map fun c => if isSafeChar c then c else '_'))

/-! ## `download_file` (lines 49-105)

The external transport (`subprocess.run` of `gdown`) is abstracted as a
function from attempt index to the observable behaviour of that invocation:
either it completes with a return code, a stderr text and the resulting
state of the destination file (`none` = no file at the path, `some n` = file
of size `n`), or it raises `TimeoutExpired`, or it raises another exception.
The destination-file state is threaded explicitly; `time.sleep` calls are
counted. -/

/-- Tri-state outcome returned by `download_file`
(`'success'` / `'skipped'` / `'error'`). -/
inductive Outcome
  | success
  | skipped
  | error
deriving DecidableEq, Repr

/-- Observable behaviour of one transport invocation. -/
inductive Invocation
  | run (returncode : Int) (stderr : String) (fileAfterRun : Option Nat)
  | timeoutExpired
  | exn
deriving DecidableEq, Repr

/-- Result of `download_file`: its outcome, the number of transport
invocations performed, the final state of the destination file, and the
number of `time.sleep` calls executed. -/
structure ExecResult where
  outcome : Outcome
  invocations : Nat
  fileAfter : Option Nat
  sleeps : Nat
deriving DecidableEq, Repr

/-- Line 73-74: lowercase the stderr and look for a rate-limit indicator
term (`'quota' in e or 'limit' in e or 'too many' in e`). -/
def has_rate_limit (stderr : String) : Bool :=
  let e := stderr.data.map lowerChar
  hasSub "quota".data e || hasSub "limit".data e || hasSub "too many".data e

/-- The `for attempt in range(max_retries)` loop of lines 57-105.  `fuel` is
the number of loop iterations remaining (initially `max_retries`, so the
attempt index is `attempt = max_retries - fuel`); `file` is the current
destination-file state; `invs` and `sleeps` count transport invocations and
`time.sleep` calls so far.  Falling off the loop returns `'error'`
(line 105). -/
def runAttempts (t : Nat → Invocation) (max_retries : Nat) :
    Nat → Nat → Option Nat → Nat → Nat → ExecResult
  | 0, _, file, invs, sleeps => ⟨.error, invs, file, sleeps⟩
  | fuel + 1, attempt, file, invs, sleeps =>
      match t attempt with
      | .run rc stderr fileRun =>
          -- line 63-68: returncode 0, file present and non-empty → success
          if rc = 0 ∧ 0 < fileRun.getD 0 then
            ⟨.success, invs + 1, fileRun, sleeps⟩
          else
            -- line 69-70: zero-byte file produced by a successful run is deleted
            let fileNow : Option Nat := if rc = 0 ∧ fileRun = some 0 then none else fileRun
            -- line 72-88: classify stderr and retry or give up
            if has_rate_limit stderr then
              runAttempts t max_retries fuel (attempt + 1) fileNow (invs + 1) (sleeps + 1)
            else if attempt < max_retries - 1 then
              runAttempts t max_retries fuel (attempt + 1) fileNow (invs + 1) (sleeps + 1)
            else
              ⟨.error, invs + 1, fileNow, sleeps⟩
      | .timeoutExpired =>
          -- line 90-99
          if attempt < max_retries - 1 then
            runAttempts t max_retries fuel (attempt + 1) file (invs + 1) (sleeps + 1)
          else
            ⟨.error, invs + 1, file, sleeps⟩
      | .exn =>
          -- line 100-103: any other exception → immediate error
          ⟨.error, invs + 1, file, sleeps⟩

/-- `download_file` (lines 49-105).  `initialFile` is the state of
`output_path` on entry (line 51: if it exists, return `'skipped'` before any
sleep or transport call); otherwise sleep the jitter delay (line 55) and run
the retry loop. -/
def download_file (initialFile : Option Nat) (t : Nat → Invocation)
    (max_retries : Nat := 3) : ExecResult :=
  match initialFile with
  | some n => ⟨.skipped, 0, some n, 0⟩
  | none => runAttempts t max_retries max_retries 0 none 0 1

/-! ## Task building in `process_csv_file` (lines 112-163) -/

/-- `str.zfill(width)`: pad on the left with `'0'` to `width` characters,
inserting the padding after a leading sign character. -/
def zfill (s : String) (width : Nat) : String :=
  if width ≤ s.length then s
  else
    let pad := List.replicate (width - s.length) '0'
    match s.data with
    | c :: rest =>
        if c = '+' ∨ c = '-' then String.mk (c :: (pad ++ rest))
        else String.mk (pad ++ s.data)
    | [] => String.mk pad

/-- One CSV row, restricted to the fields the task builder reads
(missing fields read as `""` via `row.get(..., '')`). -/
structure Row where
  ac_name_full : String
  polling_station : String
  ps_type : String
  psb : String
  psp : String
deriving DecidableEq, Repr

/-- Lines 133-136: `re.match(r'([^[]+)', ac_name_full)` takes the maximal
non-empty prefix without `'['`; no match (empty field or leading `'['`)
gives `'Unknown'`; the result is stripped and sanitized. -/
def constituencyOf (ac_name_full : String) : String :=
  let pre := ac_name_full.data.takeWhile fun c => c ≠ '['
  sanitize_filename (if pre = [] then "Unknown" else pyStrip (String.mk pre))

/-- Line 160: the output filename format
`{district}-{constituency}-PS{station}-{type}-{photoType}-{fileID}.jpg`. -/
def mkFilename (district constituency station psType photoType fileId : String) : String :=
  district ++ "-" ++ constituency ++ "-PS" ++ station ++ "-" ++ psType ++ "-" ++
    photoType ++ "-" ++ fileId ++ ".jpg"

/-- Lines 149-163, body of the loop over `photo_columns` for one column:
skip blank URLs and URLs with no extractable id; otherwise emit
`(file_id, output_filename)`. -/
def taskFor (district : String) (row : Row) (url photoType : String) :
    Option (String × String) :=
  if pyStrip url = "" then none
  else
    match extract_file_id url with
    | none => none
    | some fileId =>
        some (fileId,
          mkFilename (sanitize_filename district) (constituencyOf row.ac_name_full)
            (zfill (pyStrip row.polling_station) 3) (sanitize_filename (pyStrip row.ps_type))
            photoType fileId)

/-- Lines 127-163: the tasks contributed by one row, PSB column first, then
PSP, in the declared order of `photo_columns`. -/
def buildRowTasks (district : String) (row : Row) : List (String × String) :=
  (taskFor district row row.psb "PSB").toList ++ (taskFor district row row.psp "PSP").toList

/-! ## Outcome aggregation (lines 165-189 and 209-217) -/

/-- Per-batch counters `(downloaded, skipped, errors)`. -/
structure BatchSummary where
  downloaded : Nat
  skipped : Nat
  errors : Nat
deriving DecidableEq, Repr

/-- Lines 176-182: classify one outcome into the three counters; every
non-success, non-skipped result increments `errors`. -/
def countOutcome (s : BatchSummary) (o : Outcome) : BatchSummary :=
  match o with
  | .success => ⟨s.downloaded + 1, s.skipped, s.errors⟩
  | .skipped => ⟨s.downloaded, s.skipped + 1, s.errors⟩
  | .error => ⟨s.downloaded, s.skipped, s.errors + 1⟩

/-- Lines 166-182: fold the outcomes of one batch into a `BatchSummary`
starting from zero counters. -/
def foldOutcomes (l : List Outcome) : BatchSummary :=
  l.foldl countOutcome ⟨0, 0, 0⟩

/-- Lines 209-217: the grand total across batches, adding the per-batch
summaries componentwise. -/
def grandTotal (batches : List (List Outcome)) : BatchSummary :=
  batches.foldl
    (fun acc b =>
      let s := foldOutcomes b
      ⟨acc.downloaded + s.downloaded, acc.skipped + s.skipped, acc.errors + s.errors⟩)
    ⟨0, 0, 0⟩

/-! ## Lemmas about the sanitizer -/

/-- Every character of `collapseUnderscores l` comes from `l`. -/
theorem mem_collapseUnderscores {c : Char} :
    ∀ {l : List Char}, c ∈ collapseUnderscores l → c ∈ l := by
  intro l
  induction l using collapseUnderscores.induct with
  | case1 => simp [collapseUnderscores]
  | case2 d => simp [collapseUnderscores]
  | case3 a d rest h ih =>
      simp only [collapseUnderscores, if_pos h]
      intro hc
      exact List.mem_cons_of_mem a (ih hc)
  | case4 a d rest h ih =>
      simp only [collapseUnderscores, if_neg h]
      intro hc
      rcases List.mem_cons.mp hc with h1 | h2
      · exact h1 ▸ List.mem_cons_self a (d :: rest)
      · exact List.mem_cons_of_mem a (ih h2)

/-- Every character of the sanitizer's output is in the safe class. -/
theorem sanitize_chars_safe (x : String) :
    ∀ c ∈ (sanitize_filename x).data, isSafeChar c = true := by
  intro c hc
  have hmem : c ∈ x.data.map fun d => if isSafeChar d then d else '_' :=
    mem_collapseUnderscores hc
  rcases List.mem_map.mp hmem with ⟨d, _, hd⟩
  by_cases hs : isSafeChar d
  · rw [← hd, if_pos hs]; exact hs
  · rw [← hd, if_neg hs]; rfl

/-- Replacing unsafe characters is the identity on all-safe lists. -/
theorem map_replace_id {l : List Char} (h : ∀ c ∈ l, isSafeChar c = true) :
    (l.map fun c => if isSafeChar c then c else '_') = l := by
  induction l with
  | nil => rfl
  | cons a as ih =>
      have ha := h a (List.mem_cons_self a as)
      simp only [List.map_cons, if_pos ha, List.cons.injEq, true_and]
      exact ih fun c hc => h c (List.mem_cons_of_mem a hc)

/-- No two adjacent underscores. -/
def noAdjUnderscores : List Char → Prop
  | [] => True
  | [_] => True
  | c :: d :: rest => ¬ (c = '_' ∧ d = '_') ∧ noAdjUnderscores (d :: rest)

/-- The collapse pass keeps the head of a non-empty list. -/
theorem collapseUnderscores_head (c : Char) (rest : List Char) :
    ∃ tl, collapseUnderscores (c :: rest) = c :: tl := by
  induction rest generalizing c with
  | nil => exact ⟨[], rfl⟩
  | cons d rest ih =>
      by_cases h : c = '_' ∧ d = '_'
      · obtain ⟨tl, htl⟩ := ih d
        refine ⟨tl, ?_⟩
        simp only [collapseUnderscores, if_pos h, htl]
        rw [h.1, h.2]
      · exact ⟨collapseUnderscores (d :: rest), by
          simp only [collapseUnderscores, if_neg h]⟩

/-- The collapse pass leaves no two adjacent underscores. -/
theorem collapseUnderscores_noAdj :
    ∀ l : List Char, noAdjUnderscores (collapseUnderscores l) := by
  intro l
  induction l using collapseUnderscores.induct with
  | case1 => trivial
  | case2 d => trivial
  | case3 a d rest h ih => simpa [collapseUnderscores, if_pos h] using ih
  | case4 a d rest h ih =>
      simp only [collapseUnderscores, if_neg h]
      obtain ⟨tl, htl⟩ := collapseUnderscores_head d rest
      rw [htl]
      rw [htl] at ih
      exact ⟨h, ih⟩

/-- The collapse pass is the identity on lists with no adjacent
underscores. -/
theorem collapseUnderscores_id :
    ∀ l : List Char, noAdjUnderscores l → collapseUnderscores l = l := by
  intro l
  induction l using collapseUnderscores.induct with
  | case1 => intro _; rfl
  | case2 d => intro _; rfl
  | case3 a d rest h ih =>
      intro hna
      exact absurd h hna.1
  | case4 a d rest h ih =>
      intro hna
      simp only [collapseUnderscores, if_neg h]
      rw [ih hna.2]

/-! ## Lemmas about the retry machine -/

/-- A transport invocation that completes with a rate-limit diagnostic and
does not produce a non-empty file with return code 0. -/
def rateLimitFailure (inv : Invocation) : Prop :=
  ∃ rc stderr f, inv = .run rc stderr f ∧ has_rate_limit stderr = true ∧
    ¬(rc = 0 ∧ 0 < f.getD 0)

/-- A run of the retry loop that ends in `'success'` leaves a non-empty
file at the destination. -/
theorem runAttempts_success_file (t : Nat → Invocation) (m : Nat) :
    ∀ (fuel attempt : Nat) (file : Option Nat) (invs sleeps : Nat),
      (runAttempts t m fuel attempt file invs sleeps).outcome = .success →
      ∃ n, 0 < n ∧ (runAttempts t m fuel attempt file invs sleeps).fileAfter = some n := by
  intro fuel
  induction fuel with
  | zero =>
      intro attempt file invs sleeps h
      simp [runAttempts] at h
  | succ fuel ih =>
      intro attempt file invs sleeps h
      cases htt : t attempt with
      | run rc stderr fileRun =>
          simp only [runAttempts, htt] at h ⊢
          by_cases h1 : rc = 0 ∧ 0 < fileRun.getD 0
          · rw [if_pos h1] at h ⊢
            cases fileRun with
            | none => exact absurd h1.2 (by simp)
            | some n => exact ⟨n, by simpa using h1.2, rfl⟩
          · rw [if_neg h1] at h ⊢
            split_ifs at h ⊢ <;> exact ih _ _ _ _ h
      | timeoutExpired =>
          simp only [runAttempts, htt] at h ⊢
          split_ifs at h ⊢
          exact ih _ _ _ _ h
      | exn =>
          simp only [runAttempts, htt] at h
          exact Outcome.noConfusion h

/-- If every transport invocation is a rate-limit failure, the retry loop
burns all its remaining attempts (one invocation and one backoff sleep per
attempt) and ends in `'error'`. -/
theorem runAttempts_rateLimit (t : Nat → Invocation) (m : Nat)
    (h : ∀ i, rateLimitFailure (t i)) :
    ∀ (fuel attempt : Nat) (file : Option Nat) (invs sleeps : Nat),
      (runAttempts t m fuel attempt file invs sleeps).outcome = .error ∧
      (runAttempts t m fuel attempt file invs sleeps).invocations = invs + fuel ∧
      (runAttempts t m fuel attempt file invs sleeps).sleeps = sleeps + fuel := by
  intro fuel
  induction fuel with
  | zero => intro attempt file invs sleeps; simp [runAttempts]
  | succ fuel ih =>
      intro attempt file invs sleeps
      obtain ⟨rc, stderr, f, heq, hrl, hnot⟩ := h attempt
      simp only [runAttempts, heq]
      rw [if_neg hnot, if_pos hrl]
      obtain ⟨h1, h2, h3⟩ := ih (attempt + 1)
        (if rc = 0 ∧ f = some 0 then none else f) (invs + 1) (sleeps + 1)
      exact ⟨h1, by omega, by omega⟩

/-! ## Claim theorems -/

/-- Claim C8: the Name Sanitizer maps every character outside the safe set
(alphanumeric, underscore, hyphen, dot) to an underscore and collapses runs
of underscores, so its output only contains safe characters; it is
idempotent (`sanitize (sanitize x) = sanitize x` for every string), and
`sanitize "Paschim Champaran" = "Paschim_Champaran"`. -/
theorem sanitize_filename_spec :
    (∀ x : String, ∀ c ∈ (sanitize_filename x).data, isSafeChar c = true) ∧
    (∀ x : String, sanitize_filename (sanitize_filename x) = sanitize_filename x) ∧
    sanitize_filename "Paschim Champaran" = "Paschim_Champaran" := by
  refine ⟨sanitize_chars_safe, fun x => ?_, by decide⟩
  show String.mk (collapseUnderscores ((sanitize_filename x).data.map _)) = sanitize_filename x
  rw [map_replace_id (sanitize_chars_safe x)]
  have h2 : noAdjUnderscores (sanitize_filename x).data :=
    collapseUnderscores_noAdj (x.data.map fun c => if isSafeChar c then c else '_')
  rw [collapseUnderscores_id _ h2]

/-- Claim C4: the Identifier Extractor tries the query-parameter pattern
first and the path-segment pattern only if the first fails, returning `none`
when both fail; it maps `"https://host/open?id=ABC123"` to `"ABC123"`,
`"https://host/file/d/XYZ_9-8/view"` to `"XYZ_9-8"`, and the empty string or
unrecognized text to `none`; when both patterns would match, the
query-parameter one wins. -/
theorem extract_file_id_spec :
    extract_file_id "https://host/open?id=ABC123" = some "ABC123" ∧
    extract_file_id "https://host/file/d/XYZ_9-8/view" = some "XYZ_9-8" ∧
    extract_file_id "" = none ∧
    extract_file_id "random text" = none ∧
    extract_file_id "https://host/file/d/XYZ/view?id=ABC" = some "ABC" ∧
    (∀ u s, pyStrip u ≠ "" → searchFirst tryKVAt u.data = some s →
        extract_file_id u = some s) ∧
    (∀ u, pyStrip u ≠ "" → searchFirst tryKVAt u.data = none →
        extract_file_id u = searchFirst tryPathAt u.data) := by
  refine ⟨by decide, by decide, by decide, by decide, by decide, ?_, ?_⟩
  · intro u s hu hkv
    simp only [extract_file_id, if_neg hu, hkv]
  · intro u hu hkv
    simp only [extract_file_id, if_neg hu, hkv]

/-- Witness for C4: the ordered-pattern clauses applied at a concrete
reference string. -/
theorem extract_file_id_spec_witness :
    extract_file_id "x?id=Q7" = some "Q7" ∧
    extract_file_id "a/d/Z2/b" = searchFirst tryPathAt "a/d/Z2/b".data :=
  ⟨extract_file_id_spec.2.2.2.2.2.1 "x?id=Q7" "Q7" (by decide) (by decide),
   extract_file_id_spec.2.2.2.2.2.2 "a/d/Z2/b" (by decide) (by decide)⟩

/-- Claim C3: the Task Builder's destination filename is exactly the
sanitized batch label, the sub-region label (text before the first `'['`,
trimmed, sanitized), `PS` plus the trimmed station number zero-padded to 3
digits, the sanitized station type, the photo-role code and the resource id,
hyphen-joined with extension `.jpg`; and the concrete row of the spec yields
exactly `1-Paschim_Champaran-4-Bagaha-PS007-Auxiliary-PSB-ABC123.jpg`. -/
theorem filename_exact :
    (∀ (d : String) (row : Row) (fid : String), pyStrip row.psb ≠ "" →
        extract_file_id row.psb = some fid →
        ∃ rest, buildRowTasks d row =
          (fid, mkFilename (sanitize_filename d) (constituencyOf row.ac_name_full)
              (zfill (pyStrip row.polling_station) 3)
              (sanitize_filename (pyStrip row.ps_type)) "PSB" fid) :: rest) ∧
    buildRowTasks "1-Paschim Champaran"
        ⟨"4-Bagaha [1-Paschim Champaran]", "7", "Auxiliary",
          "https://drive.google.com/open?id=ABC123", ""⟩ =
      [("ABC123", "1-Paschim_Champaran-4-Bagaha-PS007-Auxiliary-PSB-ABC123.jpg")] := by
  refine ⟨?_, by decide⟩
  intro d row fid hne hex
  refine ⟨(taskFor d row row.psp "PSP").toList, ?_⟩
  simp only [buildRowTasks, taskFor, if_neg hne, hex, Option.toList_some, List.cons_append,
    List.nil_append]

/-- Witness for C3: the general filename-format clause applied at the
spec's concrete row. -/
theorem filename_exact_witness :
    ∃ rest, buildRowTasks "1-Paschim Champaran"
        ⟨"4-Bagaha [1-Paschim Champaran]", "7", "Auxiliary",
          "https://drive.google.com/open?id=ABC123", ""⟩ =
      ("ABC123",
        mkFilename (sanitize_filename "1-Paschim Champaran")
          (constituencyOf "4-Bagaha [1-Paschim Champaran]")
          (zfill (pyStrip "7") 3) (sanitize_filename (pyStrip "Auxiliary"))
          "PSB" "ABC123") :: rest :=
  filename_exact.1 "1-Paschim Champaran"
    ⟨"4-Bagaha [1-Paschim Champaran]", "7", "Auxiliary",
      "https://drive.google.com/open?id=ABC123", ""⟩ "ABC123"
    (by decide) (by decide)

/-- Claim C10: a row whose composite region field is empty or starts with
`'['` still yields tasks, with the literal sub-region label `Unknown` in the
filename. -/
theorem unknown_constituency :
    (∀ ac : String, ac = "" ∨ (∃ r, ac.data = '[' :: r) →
        constituencyOf ac = "Unknown") ∧
    (∀ (d : String) (row : Row) (fid : String),
        (row.ac_name_full = "" ∨ ∃ r, row.ac_name_full.data = '[' :: r) →
        pyStrip row.psb ≠ "" → extract_file_id row.psb = some fid →
        ∃ rest, buildRowTasks d row =
          (fid, mkFilename (sanitize_filename d) "Unknown"
              (zfill (pyStrip row.polling_station) 3)
              (sanitize_filename (pyStrip row.ps_type)) "PSB" fid) :: rest) := by
  have hconst : ∀ ac : String, ac = "" ∨ (∃ r, ac.data = '[' :: r) →
      constituencyOf ac = "Unknown" := by
    intro ac hac
    rcases hac with h | ⟨r, hr⟩
    · rw [h]; decide
    · have hpre : List.takeWhile (fun c => decide (c ≠ '[')) ac.data = [] := by
        rw [hr]; simp [List.takeWhile_cons]
      unfold constituencyOf
      rw [hpre]
      decide
  refine ⟨hconst, ?_⟩
  intro d row fid hac hne hex
  obtain ⟨rest, hrest⟩ := filename_exact.1 d row fid hne hex
  exact ⟨rest, by rwa [hconst row.ac_name_full hac] at hrest⟩

/-- Witness for C10: a concrete row with a leading-bracket region field
yields an `Unknown` sub-region label and still emits its task. -/
theorem unknown_constituency_witness :
    constituencyOf "[1-Paschim Champaran]" = "Unknown" ∧
    ∃ rest, buildRowTasks "9-Dist" ⟨"", "12", "Main", "q?id=F1", ""⟩ =
      ("F1", mkFilename (sanitize_filename "9-Dist") "Unknown"
          (zfill (pyStrip "12") 3) (sanitize_filename (pyStrip "Main"))
          "PSB" "F1") :: rest :=
  ⟨unknown_constituency.1 "[1-Paschim Champaran]" (Or.inr ⟨"1-Paschim Champaran]".data, rfl⟩),
   unknown_constituency.2 "9-Dist" ⟨"", "12", "Main", "q?id=F1", ""⟩ "F1"
     (Or.inl rfl) (by decide) (by decide)⟩

/-- Claim C1: with no pre-existing destination file and `max_retries = 3`, a
transport failing every invocation with a rate-limit diagnostic is invoked
exactly 3 times and the executor returns `'error'`; a transport with a
generic (non-rate-limit) completed failure on the first invocation and a
successful non-empty download on the second gives `'success'` after exactly
2 invocations. -/
theorem retry_policy :
    (∀ t : Nat → Invocation, (∀ i, rateLimitFailure (t i)) →
        (download_file none t 3).outcome = .error ∧
        (download_file none t 3).invocations = 3) ∧
    (∀ (t : Nat → Invocation) (rc : Int) (e : String) (f0 : Option Nat)
        (e1 : String) (n : Nat),
        t 0 = .run rc e f0 → ¬(rc = 0 ∧ 0 < f0.getD 0) → has_rate_limit e = false →
        t 1 = .run 0 e1 (some n) → 0 < n →
        (download_file none t 3).outcome = .success ∧
        (download_file none t 3).invocations = 2) := by
  constructor
  · intro t h
    obtain ⟨h1, h2, _⟩ := runAttempts_rateLimit t 3 h 3 0 none 0 1
    exact ⟨h1, h2⟩
  · intro t rc e f0 e1 n h0 hnot hrl h1 hn
    have hstep : download_file none t 3 =
        runAttempts t 3 2 1 (if rc = 0 ∧ f0 = some 0 then none else f0) 1 2 := by
      simp only [download_file, runAttempts, h0]
      rw [if_neg hnot, if_neg (by simp [hrl]), if_pos (by norm_num)]
    rw [hstep]
    simp only [runAttempts, h1]
    rw [if_pos (by simp [hn])]
    exact ⟨rfl, rfl⟩

/-- Witness for C1: both retry-policy clauses applied to concrete transport
stubs. -/
theorem retry_policy_witness :
    ((download_file none (fun _ => .run 1 "quota exceeded" none) 3).outcome = .error ∧
      (download_file none (fun _ => .run 1 "quota exceeded" none) 3).invocations = 3) ∧
    ((download_file none
          (fun i => if i = 0 then .run 1 "boom" none else .run 0 "" (some 10)) 3).outcome =
        .success ∧
      (download_file none
          (fun i => if i = 0 then .run 1 "boom" none else .run 0 "" (some 10)) 3).invocations =
        2) :=
  ⟨retry_policy.1 (fun _ => .run 1 "quota exceeded" none)
      (fun _ => ⟨1, "quota exceeded", none, rfl, by decide, by decide⟩),
   retry_policy.2 (fun i => if i = 0 then .run 1 "boom" none else .run 0 "" (some 10))
      1 "boom" none "" 10 rfl (by decide) (by decide) rfl (by decide)⟩

/-- Claim C2: a task whose destination file already exists returns
`'skipped'` at once, with no transport invocation, no sleep and no
filesystem change; re-running any task on the file state its first run left
behind never yields `'success'` again (a first-run `'success'` becomes
`'skipped'`) and leaves the destination file state unchanged. -/
theorem skip_existing_idempotent :
    (∀ (k : Nat) (t : Nat → Invocation) (m : Nat),
        download_file (some k) t m = ⟨.skipped, 0, some k, 0⟩) ∧
    (∀ (f0 : Option Nat) (t : Nat → Invocation) (m : Nat),
        (download_file (download_file f0 t m).fileAfter t m).outcome ≠ .success ∧
        (download_file (download_file f0 t m).fileAfter t m).fileAfter =
          (download_file f0 t m).fileAfter ∧
        ((download_file f0 t m).outcome = .success →
          (download_file (download_file f0 t m).fileAfter t m).outcome = .skipped)) := by
  constructor
  · intro k t m; rfl
  · intro f0 t m
    cases hfa : (download_file f0 t m).fileAfter with
    | some k =>
        exact ⟨by simp [download_file], by simp [download_file, hfa], fun _ => rfl⟩
    | none =>
        cases f0 with
        | some k => simp [download_file] at hfa
        | none =>
            have hns : (download_file none t m).outcome ≠ .success := by
              intro hs
              simp only [download_file] at hs hfa
              obtain ⟨n, _, hfile⟩ := runAttempts_success_file t m m 0 none 0 1 hs
              rw [hfile] at hfa
              exact Option.noConfusion hfa
            exact ⟨hns, hfa, fun hs => absurd hs hns⟩

/-- Witness for C2: both clauses at a concrete task; the inner implication
is discharged at a transport that succeeds on its first invocation. -/
theorem skip_existing_idempotent_witness :
    download_file (some 5) (fun _ => .exn) 3 = ⟨.skipped, 0, some 5, 0⟩ ∧
    (download_file
        (download_file none (fun _ => .run 0 "" (some 9)) 3).fileAfter
        (fun _ => .run 0 "" (some 9)) 3).outcome = .skipped :=
  ⟨skip_existing_idempotent.1 5 (fun _ => .exn) 3,
   (skip_existing_idempotent.2 none (fun _ => .run 0 "" (some 9)) 3).2.2 (by decide)⟩

/-- Claim C5: a transport invocation that completes with return code 0 but
leaves a zero-byte destination file is not a success: the executor deletes
the file (the retry loop resumes at attempt 1 with no destination file) and
keeps retrying, consuming one invocation and one sleep. -/
theorem zero_byte_deleted (t : Nat → Invocation) (e : String) (f : Nat)
    (h : t 0 = .run 0 e (some 0)) :
    download_file none t (f + 2) = runAttempts t (f + 2) (f + 1) 1 none 1 2 := by
  simp only [download_file, runAttempts, h]
  rw [if_neg (by simp)]
  by_cases hrl : has_rate_limit e = true
  · rw [if_pos hrl]
    norm_num
  · rw [if_neg hrl, if_pos (show 0 < f + 2 - 1 by omega)]
    norm_num

/-- Witness for C5: the zero-byte step at a transport stub that always
produces empty files, together with the resulting overall outcome. -/
theorem zero_byte_deleted_witness :
    download_file none (fun _ => .run 0 "" (some 0)) 3 =
      runAttempts (fun _ => .run 0 "" (some 0)) 3 2 1 none 1 2 ∧
    download_file none (fun _ => .run 0 "" (some 0)) 3 = ⟨.error, 3, none, 3⟩ :=
  ⟨zero_byte_deleted (fun _ => .run 0 "" (some 0)) "" 1 rfl, by decide⟩

/-- Claim C6: an invocation that raises a non-timeout exception makes the
executor return `'error'` immediately (one more invocation, no further
attempts) from any attempt with any amount of fuel left. -/
theorem exn_fast_fail :
    (∀ (t : Nat → Invocation) (m fuel attempt : Nat) (file : Option Nat)
        (invs sleeps : Nat), t attempt = .exn →
        runAttempts t m (fuel + 1) attempt file invs sleeps =
          ⟨.error, invs + 1, file, sleeps⟩) ∧
    (∀ (t : Nat → Invocation) (m : Nat), t 0 = .exn →
        download_file none t (m + 1) = ⟨.error, 1, none, 1⟩) := by
  constructor
  · intro t m fuel attempt file invs sleeps h
    simp only [runAttempts, h]
  · intro t m h
    simp only [download_file, runAttempts, h]

/-- Witness for C6: a transport raising an exception on its first
invocation fails fast with 10 retries available. -/
theorem exn_fast_fail_witness :
    runAttempts (fun _ => .exn) 10 (9 + 1) 0 none 0 1 = ⟨.error, 0 + 1, none, 1⟩ ∧
    download_file none (fun _ => .exn) (9 + 1) = ⟨.error, 1, none, 1⟩ :=
  ⟨exn_fast_fail.1 (fun _ => .exn) 10 9 0 none 0 1 rfl,
   exn_fast_fail.2 (fun _ => .exn) 9 rfl⟩

/-- Claim C7: folding any list of outcomes gives
`downloaded + skipped + errors = length`, the grand total across batches
satisfies the same invariant against the total task count, and the Fetch
Executor always returns one of the three outcomes. -/
theorem summary_invariant :
    (∀ l : List Outcome,
        (foldOutcomes l).downloaded + (foldOutcomes l).skipped +
          (foldOutcomes l).errors = l.length) ∧
    (∀ bs : List (List Outcome),
        (grandTotal bs).downloaded + (grandTotal bs).skipped +
          (grandTotal bs).errors = (bs.map List.length).sum) ∧
    (∀ (f0 : Option Nat) (t : Nat → Invocation) (m : Nat),
        (download_file f0 t m).outcome = .success ∨
        (download_file f0 t m).outcome = .skipped ∨
        (download_file f0 t m).outcome = .error) := by
  have hfold : ∀ (l : List Outcome) (a : BatchSummary),
      (l.foldl countOutcome a).downloaded + (l.foldl countOutcome a).skipped +
        (l.foldl countOutcome a).errors =
      a.downloaded + a.skipped + a.errors + l.length := by
    intro l
    induction l with
    | nil => intro a; simp
    | cons o rest ih =>
        intro a
        simp only [List.foldl_cons]
        rw [ih (countOutcome a o)]
        cases o <;> simp [countOutcome] <;> omega
  have h1 : ∀ l : List Outcome,
      (foldOutcomes l).downloaded + (foldOutcomes l).skipped +
        (foldOutcomes l).errors = l.length := by
    intro l
    have := hfold l ⟨0, 0, 0⟩
    simpa [foldOutcomes] using this
  refine ⟨h1, ?_, ?_⟩
  · intro bs
    have hg : ∀ (bs : List (List Outcome)) (a : BatchSummary),
        ((bs.foldl
            (fun acc b =>
              let s := foldOutcomes b
              ⟨acc.downloaded + s.downloaded, acc.skipped + s.skipped,
                acc.errors + s.errors⟩) a).downloaded +
          (bs.foldl
            (fun acc b =>
              let s := foldOutcomes b
              ⟨acc.downloaded + s.downloaded, acc.skipped + s.skipped,
                acc.errors + s.errors⟩) a).skipped +
          (bs.foldl
            (fun acc b =>
              let s := foldOutcomes b
              ⟨acc.downloaded + s.downloaded, acc.skipped + s.skipped,
                acc.errors + s.errors⟩) a).errors) =
        a.downloaded + a.skipped + a.errors + (bs.map List.length).sum := by
      intro bs
      induction bs with
      | nil => intro a; simp
      | cons b rest ih =>
          intro a
          simp only [List.foldl_cons, List.map_cons, List.sum_cons]
          rw [ih]
          have := h1 b
          simp only
          omega
    have := hg bs ⟨0, 0, 0⟩
    simpa [grandTotal] using this
  · intro f0 t m
    cases h : (download_file f0 t m).outcome
    · exact Or.inl rfl
    · exact Or.inr (Or.inl rfl)
    · exact Or.inr (Or.inr rfl)

end DownloadPhotos
